import Mathlib

/-!
Verification of the Cardioception adaptive threshold-estimation engine.

The development shallowly embeds the algorithmic parts of the repository:

* the condition-plan builder of
  `cardioception/HeartRateDiscrimination/parameters.py` (lines 47-51) and
  `cardioception/HeartRateDiscrimination/fMRI/parameters.py` (lines 128-145),
* the staircase-configuration dispatch of the fMRI `getParameters`
  (lines 154-197),
* the convergence estimator of `cardioception/plotting.py`,
  `hrd_convergence` (lines 117-120),
* and, where the repository only configures an external adaptive-procedure
  library (PsychoPy `StairHandler` / `PsiHandler`), a model of the procedure
  built from the specification's description.

Machine floats are modelled by `ℚ`; NumPy's NaN result on an empty median is
modelled by `Option ℚ` with `none` for NaN.
-/

namespace Cardio

/-- Condition labels of the trial plan: the two strings `'More'` and `'Less'`
built at `parameters.py` line 48 and `fMRI/parameters.py` line 129. -/
inductive Condition where
  | More
  | Less
deriving DecidableEq

/-- Modality labels of the fMRI trial plan: the strings `'Extero'` and
`'Intero'` built at `fMRI/parameters.py` lines 136-140. -/
inductive Modality where
  | Intero
  | Extero
deriving DecidableEq

/-- Python 3 `round(n/2)` for an integer `n`: `n/2` is a float ending in `.0`
or `.5`, and Python rounds halves to the nearest even integer (banker's
rounding).  `n / 2` below is integer floor division (the divisor is
positive), so for odd `n` the real value `n/2` is `n / 2 + 1/2` and the
half-even rule picks whichever of `n / 2`, `n / 2 + 1` is even. -/
def pyRoundHalf (n : ℤ) : ℤ :=
  if n % 2 = 0 then n / 2
  else if (n / 2) % 2 = 0 then n / 2 else n / 2 + 1

/-- Python `[label] * k`: `k` copies for positive `k`, the empty list
otherwise. -/
def listRep (c : Condition) (k : ℤ) : List Condition :=
  List.replicate k.toNat c

/-- The unshuffled `'Conditions'` vector:
`np.hstack([np.array(['More'] * round(nTrials/2)), np.array(['Less'] * round(nTrials/2))])`
(`parameters.py` lines 48-50 and `fMRI/parameters.py` lines 129-131). -/
def conditionsHRD (n : ℤ) : List Condition :=
  listRep Condition.More (pyRoundHalf n) ++ listRep Condition.Less (pyRoundHalf n)

/-- The fMRI `'Conditions'` vector after the exteroception branch:
`np.tile(parameters['Conditions'], 2)` when `exteroception` is true
(`fMRI/parameters.py` line 134), unchanged otherwise. -/
def conditionsFMRI (n : ℤ) (extero : Bool) : List Condition :=
  if extero then conditionsHRD n ++ conditionsHRD n else conditionsHRD n

/-- The fMRI `'Modality'` vector:
`np.hstack([np.array(['Extero'] * nTrials), np.array(['Intero'] * nTrials)])`
when `exteroception` is true (lines 136-138), else `['Intero'] * nTrials`
(line 140). -/
def modalityFMRI (n : ℤ) (extero : Bool) : List Modality :=
  if extero then
    List.replicate n.toNat Modality.Extero ++ List.replicate n.toNat Modality.Intero
  else List.replicate n.toNat Modality.Intero

/-- NumPy integer fancy indexing `xs[rand]` (`fMRI/parameters.py` lines
144-145), totalised with a default element; every use below carries the
in-range fact that `rand` is a permutation of `np.arange(0, len(xs))`. -/
def indexPlan {α : Type} (rand : List ℕ) (xs : List α) (d : α) : List α :=
  rand.map (fun i => xs.getD i d)

/-- The shuffled fMRI `'Conditions'` vector: lines 142-145 shuffle an index
vector `rand = np.arange(0, len(Modality))` in place with the process-wide
`np.random` generator and then index the conditions vector with it.  The
argument `rand` stands for the permutation the hidden global generator
produced. -/
def shuffledConditions (rand : List ℕ) (n : ℤ) (extero : Bool) : List Condition :=
  indexPlan rand (conditionsFMRI n extero) Condition.More

/-- The shuffled fMRI `'Modality'` vector, indexed by the same `rand`
(line 144). -/
def shuffledModality (rand : List ℕ) (n : ℤ) (extero : Bool) : List Modality :=
  indexPlan rand (modalityFMRI n extero) Modality.Intero

/-- The Python exceptions reachable from the embedded code:
`ValueError('Invalid number of Staircase')`, raised at `fMRI/parameters.py`
line 197. -/
inductive PyError where
  | invalidNumberOfStaircase
deriving DecidableEq

/-- The condition-plan block of the fMRI `getParameters` (lines 128-145) as a
fallible computation.  The block contains no `raise` statement and no
validation of `nTrials`, so it always succeeds; the `Except` wrapper makes
the absence of a `ConfigurationError` explicit. -/
def buildConditionPlan (n : ℤ) (extero : Bool) :
    Except PyError (List Condition × List Modality) :=
  Except.ok (conditionsFMRI n extero, modalityFMRI n extero)

theorem conditionsHRD_length (n : ℤ) :
    (conditionsHRD n).length = 2 * (pyRoundHalf n).toNat := by
  simp [conditionsHRD, listRep]
  omega

theorem pyRoundHalf_even {n : ℤ} (h0 : 0 ≤ n) (h2 : n % 2 = 0) :
    2 * (pyRoundHalf n).toNat = n.toNat := by
  simp only [pyRoundHalf, if_pos h2]
  omega

theorem pyRoundHalf_nonpos {n : ℤ} (h : n ≤ 0) : (pyRoundHalf n).toNat = 0 := by
  simp only [pyRoundHalf]
  split <;> [skip; split] <;> omega

/-- C1 counterexample: at the odd trial count `nTrials = 5` the built
`Conditions` vector has length `4`, not `5`, and the two labels get exactly
`round(5/2) = 2` entries each — no label receives the claimed extra entry. -/
theorem c1_counterexample :
    (conditionsHRD 5).length = 4 ∧ (conditionsHRD 5).length ≠ 5 ∧
      (conditionsHRD 5).count Condition.More = 2 ∧
      (conditionsHRD 5).count Condition.Less = 2 := by
  decide

/-- C1 (amended): for every trial count `n` the plan holds exactly
`round(n/2)` (Python half-even rounding) copies of each label, so the two
label counts are always exactly equal and the total length is
`2 * round(n/2)`; this equals `n` exactly when `n` is even and nonnegative,
and enabling the exteroception/modality dimension doubles the length. -/
theorem c1_amended_balance (n : ℤ) :
    (conditionsHRD n).count Condition.More = (conditionsHRD n).count Condition.Less ∧
    (conditionsHRD n).length = 2 * (pyRoundHalf n).toNat ∧
    (0 ≤ n → n % 2 = 0 → (conditionsHRD n).length = n.toNat) ∧
    (conditionsFMRI n true).length = 2 * (conditionsHRD n).length ∧
    (conditionsFMRI n false).length = (conditionsHRD n).length := by
  refine ⟨?_, conditionsHRD_length n, ?_, ?_, ?_⟩
  · simp [conditionsHRD, listRep, List.count_append, List.count_replicate]
  · intro h0 h2
    rw [conditionsHRD_length, pyRoundHalf_even h0 h2]
  · simp [conditionsFMRI]
    omega
  · simp [conditionsFMRI]

/-- C1 amended-claim witness at the even count `n = 6`. -/
theorem c1_amended_balance_witness :
    (0 ≤ (6 : ℤ) ∧ (6 : ℤ) % 2 = 0) ∧ (conditionsHRD 6).length = (6 : ℤ).toNat :=
  ⟨by decide, (c1_amended_balance 6).2.2.1 (by decide) (by decide)⟩

/-- C8 counterexample: at `nTrials = 0` (and at `nTrials = -1`) the
condition-plan block succeeds with an empty plan — it does not fail, and no
`ConfigurationError` (nor any exception at all) exists on this path in the
code. -/
theorem c8_counterexample :
    buildConditionPlan 0 true = Except.ok ([], []) ∧
      buildConditionPlan (-1) false = Except.ok ([], []) :=
  ⟨rfl, rfl⟩

/-- C8 (amended): for every `nTrials ≤ 0` the condition-plan construction
raises no error and silently yields the empty plan; the code performs no
validation of the trial count and defines no `ConfigurationError`. -/
theorem c8_amended_no_error (n : ℤ) (extero : Bool) (h : n ≤ 0) :
    buildConditionPlan n extero = Except.ok ([], []) := by
  have hr := pyRoundHalf_nonpos h
  have hn : n.toNat = 0 := by omega
  simp [buildConditionPlan, conditionsFMRI, modalityFMRI, conditionsHRD, listRep, hr, hn]

/-- C8 amended-claim witness at `nTrials = 0`. -/
theorem c8_amended_no_error_witness :
    (0 : ℤ) ≤ 0 ∧ buildConditionPlan 0 false = Except.ok ([], []) :=
  ⟨le_refl 0, c8_amended_no_error 0 false (le_refl 0)⟩

theorem getD_range_map {α : Type} (xs : List α) (d : α) :
    (List.range xs.length).map (fun i => xs.getD i d) = xs := by
  induction xs with
  | nil => simp
  | cons x xs ih =>
    rw [List.length_cons, List.range_succ_eq_map, List.map_cons, List.map_map]
    have h : ((fun i => (x :: xs).getD i d) ∘ Nat.succ) = fun i => xs.getD i d := by
      funext i
      simp [List.getD_cons_succ]
    rw [List.getD_cons_zero, h, ih]

theorem indexPlan_perm {α : Type} (rand : List ℕ) (xs : List α) (d : α)
    (h : rand.Perm (List.range xs.length)) : (indexPlan rand xs d).Perm xs := by
  have hmap := h.map (fun i => xs.getD i d)
  rw [getD_range_map] at hmap
  exact hmap

theorem zip_getD {α β : Type} (xs : List α) (ys : List β) (i : ℕ) (dx : α) (dy : β)
    (h : i < xs.length) (hl : xs.length = ys.length) :
    (xs.zip ys).getD i (dx, dy) = (xs.getD i dx, ys.getD i dy) := by
  induction xs generalizing ys i with
  | nil => simp at h
  | cons x xs ih =>
    cases ys with
    | nil => simp at hl
    | cons y ys =>
      cases i with
      | zero => simp [List.getD_cons_zero]
      | succ i =>
        simp only [List.zip_cons_cons, List.getD_cons_succ]
        exact ih ys i (by simpa using h) (by simpa using hl)

theorem indexPlan_zip {α β : Type} (rand : List ℕ) (xs : List α) (ys : List β)
    (dx : α) (dy : β) (hmem : ∀ i ∈ rand, i < xs.length) (hl : xs.length = ys.length) :
    (indexPlan rand xs dx).zip (indexPlan rand ys dy) =
      indexPlan rand (xs.zip ys) (dx, dy) := by
  induction rand with
  | nil => rfl
  | cons i rand ih =>
    simp only [indexPlan, List.map_cons, List.zip_cons_cons]
    rw [zip_getD xs ys i dx dy (hmem i (List.mem_cons_self i rand)) hl]
    have htail := ih (fun j hj => hmem j (List.mem_cons_of_mem i hj))
    simp only [indexPlan] at htail
    rw [htail]

theorem plan_lengths_eq {n : ℤ} (extero : Bool) (h0 : 0 ≤ n) (h2 : n % 2 = 0) :
    (conditionsFMRI n extero).length = (modalityFMRI n extero).length := by
  have hc := conditionsHRD_length n
  have he := pyRoundHalf_even h0 h2
  cases extero
  · simp [conditionsFMRI, modalityFMRI, hc]
    omega
  · simp [conditionsFMRI, modalityFMRI, hc]
    omega

/-- C3: whenever the shuffled index vector `rand` is a permutation of
`np.arange(0, len(Modality))` (which `np.random.shuffle` guarantees) and the
trial count is even and nonnegative (so the two vectors have equal length, as
in the shipped configuration `nTrials = 10`), indexing both vectors by `rand`
is a bijection on positions: the multisets of condition labels and of
modality labels are preserved, the two vectors are permuted by the same index
permutation (their zip is the indexed zip), and the multiset of
`(condition, modality)` pairs — each trial's pairing — is preserved. -/
theorem c3_shuffle_perm (rand : List ℕ) (n : ℤ) (extero : Bool)
    (h0 : 0 ≤ n) (h2 : n % 2 = 0)
    (hp : rand.Perm (List.range (modalityFMRI n extero).length)) :
    (shuffledConditions rand n extero).Perm (conditionsFMRI n extero) ∧
    (shuffledModality rand n extero).Perm (modalityFMRI n extero) ∧
    (shuffledConditions rand n extero).zip (shuffledModality rand n extero) =
      indexPlan rand ((conditionsFMRI n extero).zip (modalityFMRI n extero))
        (Condition.More, Modality.Intero) ∧
    ((shuffledConditions rand n extero).zip (shuffledModality rand n extero)).Perm
      ((conditionsFMRI n extero).zip (modalityFMRI n extero)) := by
  have hlen := plan_lengths_eq extero h0 h2
  have hpc : rand.Perm (List.range (conditionsFMRI n extero).length) := by
    rw [hlen]
    exact hp
  have hmem : ∀ i ∈ rand, i < (conditionsFMRI n extero).length := by
    intro i hi
    have := hpc.mem_iff.mp hi
    simpa [List.mem_range] using this
  have hzip := indexPlan_zip rand (conditionsFMRI n extero) (modalityFMRI n extero)
    Condition.More Modality.Intero hmem hlen
  simp only [shuffledConditions, shuffledModality]
  refine ⟨indexPlan_perm rand _ _ hpc, indexPlan_perm rand _ _ hp, hzip, ?_⟩
  rw [hzip]
  apply indexPlan_perm
  rw [List.length_zip, hlen, Nat.min_self]
  exact hp

/-- C3 witness at `n = 2`, no exteroception, with the transposition
`rand = [1, 0]`. -/
theorem c3_shuffle_perm_witness :
    (0 ≤ (2 : ℤ) ∧ (2 : ℤ) % 2 = 0 ∧
      ([1, 0] : List ℕ).Perm (List.range (modalityFMRI 2 false).length)) ∧
    ((shuffledConditions [1, 0] 2 false).zip (shuffledModality [1, 0] 2 false)).Perm
      ((conditionsFMRI 2 false).zip (modalityFMRI 2 false)) :=
  ⟨⟨by decide, by decide, by decide⟩,
    (c3_shuffle_perm [1, 0] 2 false (by decide) (by decide) (by decide)).2.2.2⟩

/-- The index permutation produced by the identity draw of the hidden global
generator, for a length-10 plan. -/
def shufId : List ℕ := List.range 10

/-- A second index permutation, also a valid draw of the hidden global
generator: positions 0 and 5 transposed. -/
def shufSwap : List ℕ := [5, 1, 2, 3, 4, 0, 6, 7, 8, 9]

/-- C7 counterexample: `getParameters` (fMRI, signature
`subjectID, subjectNumber, nStaircase, exteroception, stairType`) exposes no
seed or generator argument; the permutation comes from the process-wide
`np.random` global.  Two valid states of that hidden global — two
permutations of `np.arange(0, 10)` — yield different condition plans for the
identical caller arguments `nTrials = 10`, `exteroception = False`, so the
plan is not a function of the caller-exposed parameters and the random
source is not exposed to the caller. -/
theorem c7_counterexample :
    (shufId.Perm (List.range 10) ∧ shufSwap.Perm (List.range 10)) ∧
      shuffledConditions shufId 10 false ≠ shuffledConditions shufSwap 10 false := by
  decide

/-- C7 (amended): the plan is deterministic in the random draw — it is a
pure function of the permutation `rand` read from the process-wide generator
together with the trial parameters, and any valid draw produces exactly a
rearrangement of the deterministic balanced base plan; but the draw comes
from the hidden `np.random` global, not from a parameter of
`getParameters`. -/
theorem c7_amended_determinism (rand : List ℕ) (n : ℤ) (extero : Bool)
    (h : rand.Perm (List.range (conditionsFMRI n extero).length)) :
    shuffledConditions rand n extero =
      indexPlan rand (conditionsFMRI n extero) Condition.More ∧
    (shuffledConditions rand n extero).Perm (conditionsFMRI n extero) :=
  ⟨rfl, indexPlan_perm rand _ _ h⟩

/-- C7 amended-claim witness at `n = 2`, `rand = [1, 0]`. -/
theorem c7_amended_determinism_witness :
    ([1, 0] : List ℕ).Perm (List.range (conditionsFMRI 2 false).length) ∧
      (shuffledConditions [1, 0] 2 false).Perm (conditionsFMRI 2 false) :=
  ⟨by decide, (c7_amended_determinism [1, 0] 2 false (by decide)).2⟩

/-- One row of the behavioural results DataFrame read by `hrd_convergence`
(`plotting.py`): the intensity offset `Alpha` and the response `Accuracy`
(`true` for the code's `1`, i.e. a correct answer). -/
structure TrialRow where
  alpha : ℚ
  accuracy : Bool
deriving DecidableEq

/-- `np.median`: the middle element of the sorted data for odd length, the
mean of the two middle elements for even length, NaN (modelled `none`) for
empty input.  For odd length the two indices below coincide, so the single
formula covers both parities. -/
def npMedian (l : List ℚ) : Option ℚ :=
  if l.isEmpty then none
  else
    some (((List.insertionSort (fun a b : ℚ => a ≤ b) l).getD ((l.length - 1) / 2) 0 +
      (List.insertionSort (fun a b : ℚ => a ≤ b) l).getD (l.length / 2) 0) / 2)

/-- The MAD-median cut-off used by `pingouin.madmedianrule`:
`sqrt(chi2.ppf(0.975, 1)) ≈ 2.2414` applied to the MAD normalised by
`norm.ppf(0.75) ≈ 0.6745`, folded into the single rational multiple
`2.2414.. / 0.6745.. ≈ 3.3231` of the raw (unnormalised) MAD.  The claims
settled below depend only on this being a fixed positive constant, not on
its digits. -/
def madK : ℚ := 33231 / 10000

/-- `pingouin.madmedianrule` pointwise: a point `x` of the sample `l` is
flagged as an outlier when `|x - median(l)| / (MAD(l)/c) > k`, i.e.
`|x - median(l)| > madK * rawMAD(l)`.  The inequality form also reproduces
NumPy's arithmetic when the raw MAD is zero: a positive deviation divided by
zero is `inf` (flagged) and `0/0` is NaN (not flagged), exactly
`deviation > 0`. -/
def madOutlier (l : List ℚ) (x : ℚ) : Bool :=
  let m := (npMedian l).getD 0
  let mad := (npMedian (l.map (fun y => |y - m|))).getD 0
  decide (madK * mad < |x - m|)

/-- The boolean vector `madmedianrule(revers)` over the sample itself. -/
def madFlags (l : List ℚ) : List Bool :=
  l.map (fun x => madOutlier l x)

/-- `revers = np.abs(results_df.Alpha[results_df.Accuracy == 0])`
(`plotting.py` line 118): the absolute intensity offsets of the
`Accuracy == 0` trials. -/
def errorAlphas (df : List TrialRow) : List ℚ :=
  (df.filter (fun t => !t.accuracy)).map (fun t => |t.alpha|)

/-- NumPy boolean-mask indexing `revers[~madmedianrule(revers)]`
(`plotting.py` line 119): the entries whose flag is false, in order. -/
def madKeep (l : List ℚ) : List ℚ :=
  ((l.zip (madFlags l)).filter (fun p => !p.2)).map (fun p => p.1)

/-- The convergence point estimate of `hrd_convergence`
(`plotting.py` lines 117-119):
`conv = np.median(revers[~madmedianrule(revers)])`. -/
def hrd_convergence (df : List TrialRow) : Option ℚ :=
  npMedian (madKeep (errorAlphas df))

/-- The ConvergenceEstimator as worded by the spec (section 4.5): restrict to
trials with `accuracy == 0`, take the absolute value of the intensity offset,
exclude the points flagged by the MAD-median rule, and return the median of
the remaining values. -/
def convergenceEstimateSpec (df : List TrialRow) : Option ℚ :=
  npMedian (((df.filter (fun t => !t.accuracy)).map (fun t => |t.alpha|)).filter
    (fun x => !(madOutlier ((df.filter (fun t => !t.accuracy)).map (fun t => |t.alpha|)) x)))

theorem zip_flags_filter {α : Type} (l : List α) (p : α → Bool) :
    ((l.zip (l.map p)).filter (fun q => !q.2)).map (fun q => q.1) =
      l.filter (fun x => !(p x)) := by
  induction l with
  | nil => rfl
  | cons x l ih =>
    simp only [List.map_cons, List.zip_cons_cons, List.filter_cons]
    cases hpx : p x with
    | false => simpa [hpx] using ih
    | true => simpa [hpx] using ih

theorem madKeep_eq_filter (l : List ℚ) :
    madKeep l = l.filter (fun x => !(madOutlier l x)) := by
  unfold madKeep madFlags
  exact zip_flags_filter l (fun x => madOutlier l x)

/-- C2: the point estimate computed by `hrd_convergence` is exactly the
spec's ConvergenceEstimator pipeline — restrict the history to trials with
`accuracy == 0`, take absolute intensity offsets, drop the points flagged by
the MAD-median (median-absolute-deviation-from-median) rule, and take the
median of what remains. -/
theorem c2_convergence_pipeline (df : List TrialRow) :
    hrd_convergence df = convergenceEstimateSpec df := by
  unfold hrd_convergence convergenceEstimateSpec
  rw [madKeep_eq_filter]
  rfl

/-- C9: when the informative subset is empty (no `accuracy == 0` trial) or
every point of it is excluded by the outlier rule, `hrd_convergence` returns
the NaN sentinel (`none`) — the embedded estimator is a total function, so no
exception is raised. -/
theorem c9_empty_input_sentinel (df : List TrialRow)
    (h : errorAlphas df = [] ∨ madKeep (errorAlphas df) = []) :
    hrd_convergence df = none := by
  rcases h with h | h
  · simp [hrd_convergence, h, madKeep, madFlags, npMedian]
  · simp [hrd_convergence, h, npMedian]

/-- C9 witness: a one-trial history whose only trial was answered correctly
has an empty informative subset, and the estimator returns the sentinel. -/
theorem c9_empty_input_sentinel_witness :
    errorAlphas [⟨3, true⟩] = [] ∧ hrd_convergence [⟨3, true⟩] = none :=
  ⟨rfl, c9_empty_input_sentinel [⟨3, true⟩] (Or.inl rfl)⟩

/-- Direction of a staircase move. -/
inductive Dir where
  | Up
  | Down
deriving DecidableEq

/-- Modelled from the spec: the Up-Down staircase state (spec sections 3 and
4.2).  The repository only configures PsychoPy's `StairHandler`
(`fMRI/parameters.py` lines 156-160); the procedure itself is not under
`src/`, so it is modelled from the spec's contract: current intensity, step
table with current index, last move direction, consecutive-response
counters, and the reversal count. -/
structure UpDownState where
  intensity : ℚ
  stepSizes : List ℚ
  stepIndex : ℕ
  nUp : ℕ
  nDown : ℕ
  minVal : ℚ
  maxVal : ℚ
  direction : Option Dir
  consecCorrect : ℕ
  consecIncorrect : ℕ
  nReversals : ℕ
deriving DecidableEq

/-- Clamp to `[lo, hi]` (spec 4.2: intensity is clamped after every move). -/
def clampQ (lo hi x : ℚ) : ℚ :=
  if x < lo then lo else if hi < x then hi else x

/-- Modelled from the spec: one staircase move (spec 4.2).  The step applied
is `step_sizes[step_index]`; a move opposite to the previous move's direction
is a reversal, which increments the reversal count and advances the step
index (capped at the last entry); the very first move has no prior direction
and is never a reversal; the new intensity is clamped to
`[minVal, maxVal]`. -/
def udMove (s : UpDownState) (d : Dir) : UpDownState :=
  let lastIdx := s.stepSizes.length - 1
  let step := s.stepSizes.getD (if s.stepIndex ≤ lastIdx then s.stepIndex else lastIdx) 0
  let raw := match d with
    | Dir.Down => s.intensity - step
    | Dir.Up => s.intensity + step
  let isRev := match s.direction with
    | none => false
    | some d0 => decide (d0 ≠ d)
  { s with
    intensity := clampQ s.minVal s.maxVal raw
    direction := some d
    stepIndex :=
      if isRev then (if s.stepIndex + 1 ≤ lastIdx then s.stepIndex + 1 else lastIdx)
      else s.stepIndex
    nReversals := if isRev then s.nReversals + 1 else s.nReversals
    consecCorrect := 0
    consecIncorrect := 0 }

/-- Modelled from the spec: `update(was_correct)` of the N-down / M-up rule
(spec 4.2) — intensity decreases after `nDown` consecutive correct responses,
increases after `nUp` consecutive incorrect responses, and any response that
does not complete a qualifying streak leaves the intensity unchanged. -/
def udUpdate (s : UpDownState) (wasCorrect : Bool) : UpDownState :=
  if wasCorrect then
    let cc := s.consecCorrect + 1
    if s.nDown ≤ cc then udMove s Dir.Down
    else { s with consecCorrect := cc, consecIncorrect := 0 }
  else
    let ci := s.consecIncorrect + 1
    if s.nUp ≤ ci then udMove s Dir.Up
    else { s with consecIncorrect := ci, consecCorrect := 0 }

/-- The Up-Down staircase as configured at `fMRI/parameters.py` lines
156-160: `startVal=40, nUp=1, nDown=2, stepSizes=[20, 12, 12, 7, 4, 3, 2, 1],
minVal=1, maxVal=100`. -/
def udInit : UpDownState :=
  { intensity := 40
    stepSizes := [20, 12, 12, 7, 4, 3, 2, 1]
    stepIndex := 0
    nUp := 1
    nDown := 2
    minVal := 1
    maxVal := 100
    direction := none
    consecCorrect := 0
    consecIncorrect := 0
    nReversals := 0 }

/-- Run the configured staircase over a response script (`true` = correct). -/
def udRun (rs : List Bool) : UpDownState :=
  rs.foldl udUpdate udInit

/-- C4: from the configured start at 40, the response script
`[correct, correct, incorrect]` leaves the intensity at 40 after the first
correct, decreases it by 20 (to 20) after the second correct — a first move
that is not counted as a reversal — and increases it by 20 (back to 40)
after the incorrect response, which is the first reversal; every
intermediate intensity lies in `[minVal, maxVal] = [1, 100]`. -/
theorem c4_updown_trajectory :
    (udRun [true]).intensity = 40 ∧
    (udRun [true, true]).intensity = (udRun [true]).intensity - 20 ∧
    (udRun [true, true]).intensity = 20 ∧
    (udRun [true, true]).nReversals = 0 ∧
    (udRun [true, true, false]).intensity = (udRun [true, true]).intensity + 20 ∧
    (udRun [true, true, false]).intensity = 40 ∧
    (udRun [true, true, false]).nReversals = 1 ∧
    (udInit.minVal ≤ (udRun [true]).intensity ∧ (udRun [true]).intensity ≤ udInit.maxVal) ∧
    (udInit.minVal ≤ (udRun [true, true]).intensity ∧
      (udRun [true, true]).intensity ≤ udInit.maxVal) ∧
    (udInit.minVal ≤ (udRun [true, true, false]).intensity ∧
      (udRun [true, true, false]).intensity ≤ udInit.maxVal) := by
  norm_num [udRun, udUpdate, udMove, udInit, clampQ]
  decide

/-- Modelled from the spec: the likelihood vector a Psi update multiplies the
posterior by (spec 4.3) — `P(correct | intensity, alpha, beta)` evaluated at
the presented intensity across the discretized `(alpha, beta)` grid when the
response was correct, its complement otherwise.  The sigmoid's values enter
as the vector `pCorrect`; the normalization invariant settled below holds
for every such vector. -/
def psiLik (pCorrect : List ℚ) (wasCorrect : Bool) : List ℚ :=
  if wasCorrect then pCorrect else pCorrect.map (fun p => 1 - p)

/-- Modelled from the spec: the unnormalised posterior after Bayes' rule —
the current posterior multiplied pointwise by the likelihood (spec 4.3). -/
def psiWeights (posterior pCorrect : List ℚ) (wasCorrect : Bool) : List ℚ :=
  posterior.zipWith (fun a b => a * b) (psiLik pCorrect wasCorrect)

/-- Modelled from the spec: `update(was_correct)` of the Psi staircase
(spec 4.3) — multiply pointwise by the likelihood, then renormalize so the
grid sums to 1.  The repository only configures PsychoPy's `PsiHandler`
(`fMRI/parameters.py` lines 161-167); the procedure is not under `src/`. -/
def psiUpdate (posterior pCorrect : List ℚ) (wasCorrect : Bool) : List ℚ :=
  (psiWeights posterior pCorrect wasCorrect).map
    (fun w => w / (psiWeights posterior pCorrect wasCorrect).sum)

theorem sum_map_div (l : List ℚ) (t : ℚ) : (l.map (fun w => w / t)).sum = l.sum / t := by
  induction l with
  | nil => simp
  | cons x l ih => simp [ih, add_div]

/-- C5: after every `update(was_correct)` the Psi posterior is again a
normalized probability distribution — for every posterior state, every
likelihood vector and both responses, as long as the total unnormalised mass
is nonzero (the spec's `NumericalDegeneracyError` guard), the renormalized
grid sums exactly to 1 (exactly, since the embedding computes in `ℚ`). -/
theorem c5_psi_posterior_normalized (posterior pCorrect : List ℚ) (wasCorrect : Bool)
    (h : (psiWeights posterior pCorrect wasCorrect).sum ≠ 0) :
    (psiUpdate posterior pCorrect wasCorrect).sum = 1 := by
  unfold psiUpdate
  rw [sum_map_div]
  exact div_self h

/-- C5 witness: the uniform two-point posterior `[1/2, 1/2]` with likelihood
vector `[1/3, 2/3]` and a correct response has unnormalised mass `1/2 ≠ 0`,
and the updated posterior sums to 1. -/
theorem c5_psi_posterior_normalized_witness :
    (psiWeights [1/2, 1/2] [1/3, 2/3] true).sum ≠ 0 ∧
      (psiUpdate [1/2, 1/2] [1/3, 2/3] true).sum = 1 :=
  ⟨by norm_num [psiWeights, psiLik],
    c5_psi_posterior_normalized [1/2, 1/2] [1/3, 2/3] true
      (by norm_num [psiWeights, psiLik])⟩

/-- Modelled from the spec: the per-condition Psi staircase state (spec
section 3, Psi variant): the posterior grid and the trial history. -/
structure PsiState where
  posterior : List ℚ
  history : List (ℚ × Bool)
deriving DecidableEq

/-- Modelled from the spec: feeding one outcome to a Psi staircase — Bayes
update of the posterior and an appended history entry. -/
def psiStateUpdate (s : PsiState) (intensity : ℚ) (pCorrect : List ℚ)
    (wasCorrect : Bool) : PsiState :=
  { posterior := psiUpdate s.posterior pCorrect wasCorrect
    history := s.history ++ [(intensity, wasCorrect)] }

/-- Modelled from the spec: the StaircaseManager for the two-staircase psi
configuration (`fMRI/parameters.py` lines 181-194): one independent
`PsiHandler` instance per condition label, stored under the keys `'Less'`
and `'More'`. -/
structure StaircaseManager where
  less : PsiState
  more : PsiState
deriving DecidableEq

/-- Modelled from the spec: `report_outcome(condition, was_correct)` — the
trial's condition label routes the outcome to that label's staircase
instance only (spec 4.4). -/
def reportOutcome (m : StaircaseManager) (c : Condition) (intensity : ℚ)
    (pCorrect : List ℚ) (wasCorrect : Bool) : StaircaseManager :=
  match c with
  | Condition.Less => { m with less := psiStateUpdate m.less intensity pCorrect wasCorrect }
  | Condition.More => { m with more := psiStateUpdate m.more intensity pCorrect wasCorrect }

/-- C6: reporting an outcome to the staircase of one condition label leaves
the other label's staircase state — and therefore the output of any function
of that state, in particular `next_intensity()` — completely unchanged: the
two instances share no mutable state. -/
theorem c6_staircase_independence (m : StaircaseManager) (intensity : ℚ)
    (pCorrect : List ℚ) (wasCorrect : Bool) :
    (reportOutcome m Condition.More intensity pCorrect wasCorrect).less = m.less ∧
    (reportOutcome m Condition.Less intensity pCorrect wasCorrect).more = m.more ∧
    (∀ nextIntensity : PsiState → ℚ,
      nextIntensity (reportOutcome m Condition.More intensity pCorrect wasCorrect).less =
        nextIntensity m.less ∧
      nextIntensity (reportOutcome m Condition.Less intensity pCorrect wasCorrect).more =
        nextIntensity m.more) :=
  ⟨rfl, rfl, fun _ => ⟨rfl, rfl⟩⟩

/-- The staircase type requested from `getParameters`: the code compares the
`stairType` string against the two literals `'UpDown'` and `'psi'`; `other`
stands for any further string. -/
inductive StairType where
  | psi
  | upDown
  | other
deriving DecidableEq

/-- The staircase value stored in `parameters['stairCase']` by the dispatch
at `fMRI/parameters.py` lines 154-197. -/
inductive StairCaseValue where
  | upDownSingle
  | psiSingle
  | upDownMulti
  | psiPair
deriving DecidableEq

/-- The staircase-configuration dispatch of the fMRI `getParameters`, lines
154-197: `nStaircase == 1` and `nStaircase == 2` configure the corresponding
staircase object (or leave `parameters['stairCase']` unset, modelled `none`,
when the `stairType` string matches neither branch); every other
`nStaircase` raises `ValueError('Invalid number of Staircase')` before any
staircase object is built. -/
def configureStairCase (nStaircase : ℤ) (stairType : StairType) :
    Except PyError (Option StairCaseValue) :=
  if nStaircase = 1 then
    if stairType = StairType.upDown then Except.ok (some StairCaseValue.upDownSingle)
    else if stairType = StairType.psi then Except.ok (some StairCaseValue.psiSingle)
    else Except.ok none
  else if nStaircase = 2 then
    if stairType = StairType.upDown then Except.ok (some StairCaseValue.upDownMulti)
    else if stairType = StairType.psi then Except.ok (some StairCaseValue.psiPair)
    else Except.ok none
  else Except.error PyError.invalidNumberOfStaircase

/-- C10: the staircase dispatch raises
`ValueError('Invalid number of Staircase')` exactly for the `nStaircase`
arguments other than 1 and 2 — for every such count, whatever the staircase
type, and never for 1 or 2; on the error path no staircase value is
produced. -/
theorem c10_invalid_staircase_error (nStaircase : ℤ) (stairType : StairType) :
    configureStairCase nStaircase stairType =
        Except.error PyError.invalidNumberOfStaircase ↔
      nStaircase ≠ 1 ∧ nStaircase ≠ 2 := by
  by_cases h1 : nStaircase = 1
  · cases stairType <;> simp [configureStairCase, h1]
  · by_cases h2 : nStaircase = 2
    · cases stairType <;> simp [configureStairCase, h1, h2]
    · simp [configureStairCase, h1, h2]

/-- C10 witness: `nStaircase = 3` raises the `ValueError`, `nStaircase = 2`
does not. -/
theorem c10_invalid_staircase_error_witness :
    configureStairCase 3 StairType.psi = Except.error PyError.invalidNumberOfStaircase ∧
      configureStairCase 2 StairType.psi ≠ Except.error PyError.invalidNumberOfStaircase :=
  ⟨(c10_invalid_staircase_error 3 StairType.psi).mpr (by decide),
    fun h => by
      have := (c10_invalid_staircase_error 2 StairType.psi).mp h
      exact this.2 rfl⟩

end Cardio
